import Mathlib

/-!
Shallow embedding of the tinyrpc RPC framework (github.com/Asolmn/tinyrpc)
and proofs about its client multiplexer, server dispatch, codec table,
options parsing, discovery and registry components.

Go maps are embedded as association lists, Go `uint64` as `Nat` reduced
modulo `2 ^ 64` where an overflowing increment occurs, Go `time.Time` and
`time.Duration` as `Nat` (nanoseconds), and fallible Go functions as
`Except`-valued Lean functions.  Channels appear only through the
observable effect that matters to the properties proved here: whether a
call's `Done` notifier has been signalled.
-/

namespace TinyRPC

/-- Go `error` values, identified by their message string. -/
structure GoError where
  msg : String
deriving DecidableEq, Repr

/-- Go source: `var ErrShutdown = errors.New("connection is shut down")`. -/
def ErrShutdown : GoError := ⟨"connection is shut down"⟩

instance {ε α : Type} [DecidableEq ε] [DecidableEq α] : DecidableEq (Except ε α) := fun a b =>
  match a, b with
  | .ok x, .ok y =>
    if h : x = y then .isTrue (by rw [h]) else .isFalse (by intro hc; cases hc; exact h rfl)
  | .error x, .error y =>
    if h : x = y then .isTrue (by rw [h]) else .isFalse (by intro hc; cases hc; exact h rfl)
  | .ok _, .error _ => .isFalse (by intro hc; cases hc)
  | .error _, .ok _ => .isFalse (by intro hc; cases hc)

/-- Go source: `const MagicNumber = 0x3bef5c` (server.go). -/
def MagicNumber : Nat := 0x3bef5c

namespace Codec

/-- Go source: `GobType Type = "application/gob"` (codec/codec.go). -/
def GobType : String := "application/gob"

/-- Go source: `JsonType Type = "application/json"` (codec/codec.go). -/
def JsonType : String := "application/json"

/-- Constructors that can populate `NewCodecFuncMap`.  The repository
defines a single concrete codec, `NewGobCodec` (codec/gob.go). -/
inductive CodecCtor
  | newGobCodec
deriving DecidableEq, Repr

/-- Go source: the `init()` function of codec/codec.go builds the factory
map and installs exactly one entry, `NewCodecFuncMap[GobType] = NewGobCodec`. -/
def NewCodecFuncMap : List (String × CodecCtor) := [(GobType, CodecCtor.newGobCodec)]

/-- Lookup `NewCodecFuncMap[t]`; a missing key yields Go's nil function value. -/
def lookupCodec (t : String) : Option CodecCtor :=
  (NewCodecFuncMap.find? fun p => p.1 == t).map Prod.snd

/-- Go source: `Header` (codec/codec.go): ServiceMethod, Seq, Error. -/
structure Header where
  serviceMethod : String
  seq : Nat
  error : String
deriving DecidableEq, Repr

/-- One `(Header, Body)` response frame on the wire.  The body's content is
irrelevant to the client's routing logic; `bodyDecodes` records whether a
gob decode of the body into the caller's typed reply slot would succeed. -/
structure Frame where
  header : Header
  bodyDecodes : Bool
deriving DecidableEq, Repr

/-- Kind of argument handed to `GobCodec.ReadBody` (which is
`gob.Decoder.Decode(body)`): Go `nil`, a pointer, or a non-pointer value. -/
inductive BodyArg
  | nilArg
  | ptrArg
  | nonPtrValue
deriving DecidableEq, Repr

/-- Behaviour of `gob.Decoder.Decode` (encoding/gob, the library that
`GobCodec.ReadBody` delegates to): a nil interface discards the next value;
a pointer decodes the next value (failing when the data does not fit); a
non-pointer argument is rejected with `gob: attempt to decode into a
non-pointer` before any input is consumed. -/
def gobReadBody (f : Frame) : BodyArg → Except GoError Unit
  | .nilArg => .ok ()
  | .ptrArg => if f.bodyDecodes then .ok () else .error ⟨"gob decode error"⟩
  | .nonPtrValue => .error ⟨"gob: attempt to decode into a non-pointer"⟩

end Codec

/-- Go source: `Option` (server.go): handshake record. Durations in ns. -/
structure Opt where
  magicNumber : Nat
  codecType : String
  connectTimeout : Nat
  handleTimeout : Nat
deriving DecidableEq, Repr

/-- Go source: `DefaultOption` (server.go): magic number set, gob codec,
10 second connect timeout (10^10 ns), zero handle timeout. -/
def DefaultOption : Opt :=
  { magicNumber := MagicNumber
    codecType := Codec.GobType
    connectTimeout := 10000000000
    handleTimeout := 0 }

namespace Client

/-- Go source: `Call` (client, part of the repository's client file).
`Args`/`Reply` are opaque to the routing logic and omitted; `callError`
models the `Error` field (`none` = Go nil) and `doneSignalled` records
whether `call.done()` has sent the call on its `Done` channel. -/
structure Call where
  seq : Nat
  serviceMethod : String
  callError : Option GoError
  doneSignalled : Bool
deriving DecidableEq, Repr

/-- Go source: the mutable part of `Client`: seq counter, pending map,
closing/shutdown flags, and whether `cc.Close()` has been invoked. -/
structure ClientState where
  seq : Nat
  pending : List (Nat × Call)
  closing : Bool
  shutdown : Bool
  codecClosed : Bool
deriving DecidableEq, Repr

/-- Go map assignment `m[k] = v` on the pending map. -/
def mapIns (m : List (Nat × Call)) (k : Nat) (v : Call) : List (Nat × Call) :=
  (k, v) :: m.filter fun p => p.1 != k

/-- Go map read `m[k]` on the pending map (missing key = nil call). -/
def mapGet (m : List (Nat × Call)) (k : Nat) : Option Call :=
  (m.find? fun p => p.1 == k).map Prod.snd

/-- Go `delete(m, k)` on the pending map. -/
def mapDel (m : List (Nat × Call)) (k : Nat) : List (Nat × Call) :=
  m.filter fun p => p.1 != k

/-- Go source: `newClientCodec`: seq starts at 1 (0 marks an invalid call),
pending starts empty, flags start false. -/
def newClientCodec : ClientState :=
  { seq := 1, pending := [], closing := false, shutdown := false, codecClosed := false }

/-- Go source: `Client.Close`: an already-closing client yields
`ErrShutdown`; otherwise set `closing` and close the codec. -/
def Close (st : ClientState) : ClientState × Except GoError Unit :=
  if st.closing then (st, .error ErrShutdown)
  else ({ st with closing := true, codecClosed := true }, .ok ())

/-- Go source: `Client.IsAvailable`. -/
def IsAvailable (st : ClientState) : Bool :=
  !st.shutdown && !st.closing

/-- Go source: `Client.registerCall`: reject when closing or shut down;
otherwise stamp the call with the current seq, insert it into pending
under that seq, and increment the `uint64` counter (wrapping). -/
def registerCall (st : ClientState) (c : Call) : ClientState × Except GoError Nat :=
  if st.closing || st.shutdown then (st, .error ErrShutdown)
  else
    let c2 := { c with seq := st.seq }
    ({ st with
        pending := mapIns st.pending c2.seq c2
        seq := (st.seq + 1) % 2 ^ 64 },
      .ok c2.seq)

/-- Go source: `Client.removeCall`: read `pending[seq]`, delete the key,
return the call (nil when absent). -/
def removeCall (st : ClientState) (s : Nat) : ClientState × Option Call :=
  ({ st with pending := mapDel st.pending s }, mapGet st.pending s)

/-- Go source: `Client.terminateCalls`: set `shutdown`, then for every
pending call set its `Error` to `e` and fire `done()`.  The loop mutates
the calls in place; no entry is deleted from `pending`. -/
def terminateCalls (st : ClientState) (e : GoError) : ClientState :=
  { st with
      shutdown := true
      pending := st.pending.map fun p =>
        (p.1, { p.2 with callError := some e, doneSignalled := true }) }

/-- Error with which `ReadHeader` fails when the stream of frames ends. -/
def errEOF : GoError := ⟨"EOF"⟩

/-- Outcome of one iteration of the receive loop body: the client state
after `removeCall`, the call (if any) whose `done()` fired, and the value
of the loop's `err` variable after the iteration (`some` breaks the loop). -/
structure StepResult where
  state : ClientState
  notified : Option Call
  err : Option GoError
deriving DecidableEq, Repr

/-- Go source: the body of the `for` loop in `Client.receive`, given a
successfully read header frame `f`.

* call absent: `err = client.cc.ReadBody(h.Error)` — the argument is the
  header's `Error` string, a non-pointer value;
* `h.Error != ""`: set `call.Error`, `err = client.cc.ReadBody(nil)`,
  fire `done()`;
* otherwise: `err = client.cc.ReadBody(call.Reply)`; on failure prefix the
  message with `reading body `; fire `done()`. -/
def receiveStep (st : ClientState) (f : Codec.Frame) : StepResult :=
  let r := removeCall st f.header.seq
  match r.2 with
  | none =>
    { state := r.1
      notified := none
      err := match Codec.gobReadBody f .nonPtrValue with
             | .ok _ => none
             | .error e => some e }
  | some call =>
    if f.header.error ≠ "" then
      { state := r.1
        notified := some { call with callError := some ⟨f.header.error⟩, doneSignalled := true }
        err := match Codec.gobReadBody f .nilArg with
               | .ok _ => none
               | .error e => some e }
    else
      match Codec.gobReadBody f .ptrArg with
      | .ok _ =>
        { state := r.1
          notified := some { call with doneSignalled := true }
          err := none }
      | .error e =>
        { state := r.1
          notified := some { call with
                              callError := some ⟨"reading body " ++ e.msg⟩
                              doneSignalled := true }
          err := some e }

/-- Go source: `Client.receive`: loop while `err == nil` reading headers
(an exhausted stream makes `ReadHeader` fail with EOF), then
`terminateCalls(err)`.  Returns the final state and the calls whose
`done()` fired inside the loop, in order. -/
def receive (st : ClientState) : List Codec.Frame → ClientState × List Call
  | [] => (terminateCalls st errEOF, [])
  | f :: rest =>
    let r := receiveStep st f
    match r.err with
    | some e => (terminateCalls r.state e, r.notified.toList)
    | none =>
      let k := receive r.state rest
      (k.1, r.notified.toList ++ k.2)

/-- Go source: `parseOptions(opts ...*Option)`: an empty list or a nil
first element yields `DefaultOption`; more than one element is an error;
the single element gets its magic number forced and an empty codec type
replaced by the default, timeouts untouched. -/
def parseOptions (opts : List (Option Opt)) : Except GoError Opt :=
  if opts.length = 0 || (opts.headD none).isNone then .ok DefaultOption
  else if opts.length ≠ 1 then .error ⟨"number of options is more than 1"⟩
  else
    match opts.headD none with
    | none => .ok DefaultOption
    | some o =>
      .ok { o with
              magicNumber := DefaultOption.magicNumber
              codecType := if o.codecType = "" then DefaultOption.codecType else o.codecType }

/-- State transformers a caller can apply to a client, used to express
properties over arbitrary interleavings of client operations. -/
inductive ClientOp
  | register (c : Call)
  | remove (s : Nat)
  | close
  | terminate (e : GoError)
deriving DecidableEq, Repr

/-- Run a list of operations from a state, collecting the sequence numbers
assigned by the successful `registerCall` invocations, in order. -/
def runOps (st : ClientState) : List ClientOp → ClientState × List Nat
  | [] => (st, [])
  | op :: rest =>
    let step : ClientState × Option Nat :=
      match op with
      | .register c =>
        match registerCall st c with
        | (st2, .ok s) => (st2, some s)
        | (st2, .error _) => (st2, none)
      | .remove s => ((removeCall st s).1, none)
      | .close => ((Close st).1, none)
      | .terminate e => (terminateCalls st e, none)
    let k := runOps step.1 rest
    (k.1, step.2.toList ++ k.2)

/-- Result of `NewClient`: the handshake `Option` written to the
connection (if any) and the overall outcome. -/
structure NewClientResult where
  sentHandshake : Option Opt
  result : Except GoError Unit
deriving DecidableEq, Repr

/-- Go source: `NewClient(conn, opt)`: look up the codec constructor
first; a missing constructor produces the invalid-codec-type error before
the JSON handshake is written.  Otherwise the handshake is sent and the
client is created via `newClientCodec`. -/
def NewClient (opt : Opt) : NewClientResult :=
  match Codec.lookupCodec opt.codecType with
  | none => { sentHandshake := none, result := .error ⟨"invalid codec type " ++ opt.codecType⟩ }
  | some _ => { sentHandshake := some opt, result := .ok () }

end Client

namespace Server

/-- Go source: `const connected = "200 Connected to tinyrpc"` (server.go). -/
def connected : String := "200 Connected to tinyrpc"

/-- Observable effect of `Server.ServeHTTP` on one request: either a plain
status-405 response, or a hijack of the connection with the given bytes
written before `ServeConn` takes over the stream. -/
inductive HTTPAction
  | methodNotAllowed (status : Nat) (body : String)
  | hijack (written : String)
deriving DecidableEq, Repr

/-- Go source: `Server.ServeHTTP` (server.go): a non-CONNECT method gets
status 405 with body `405 must CONNECT\n`; CONNECT hijacks the stream and
writes `"HTTP/1.0" + connected + "\n\n"` before calling `ServeConn`. -/
def ServeHTTP (method : String) : HTTPAction :=
  if method ≠ "CONNECT" then .methodNotAllowed 405 "405 must CONNECT\n"
  else .hijack ("HTTP/1.0" ++ connected ++ "\n\n")

/-- Outcome of `Server.ServeConn` up to codec construction: abort on a
handshake decode error, on a bad magic number, or on an unknown codec
type; otherwise serve with the constructed codec. -/
inductive ServeConnOutcome
  | abortOptionsError
  | abortInvalidMagic
  | abortInvalidCodec
  | serve (ctor : Codec.CodecCtor)
deriving DecidableEq, Repr

/-- Go source: `Server.ServeConn` (server.go): decode the JSON `Option`
(`none` = decode failure), check `MagicNumber`, look up the codec factory,
and only then enter `serveCodec`. -/
def ServeConn (handshake : Option Opt) : ServeConnOutcome :=
  match handshake with
  | none => .abortOptionsError
  | some opt =>
    if opt.magicNumber ≠ MagicNumber then .abortInvalidMagic
    else
      match Codec.lookupCodec opt.codecType with
      | none => .abortInvalidCodec
      | some f => .serve f

end Server

namespace Service

/-- The facts about a Go `reflect.Type` that the registration filter and
the claims consult: the type's name (empty for unnamed types), its package
path (empty for builtin or unnamed types), and whether it is a pointer. -/
structure GoType where
  name : String
  pkgPath : String
  isPtr : Bool
deriving DecidableEq, Repr

/-- Behaviour of `go/ast.IsExported`: the first character is upper case. -/
def isExported (s : String) : Bool :=
  match s.data with
  | [] => false
  | c :: _ => c.isUpper

/-- Go source: `isExportedOrBuiltinType` (service.go): exported name or
empty package path. -/
def isExportedOrBuiltinType (t : GoType) : Bool :=
  isExported t.name || t.pkgPath == ""

/-- The facts about a Go method that `registerMethods` consults: its name,
the count of inputs (receiver included) and outputs, whether the first
output is the `error` type, and the first and second parameter types. -/
structure GoMethod where
  name : String
  numIn : Nat
  numOut : Nat
  out0IsError : Bool
  argType : GoType
  replyType : GoType
deriving DecidableEq, Repr

/-- Go source: the filter applied by `service.registerMethods`
(service.go): exactly 3 inputs and 1 output, the output is `error`, and
both parameter types are exported or builtin.  The source performs no
check on the reply parameter's kind. -/
def methodQualifies (m : GoMethod) : Bool :=
  if m.numIn != 3 || m.numOut != 1 then false
  else if !m.out0IsError then false
  else isExportedOrBuiltinType m.argType && isExportedOrBuiltinType m.replyType

/-- Go source: `service.registerMethods` builds the method table from the
receiver type's method set, keyed by method name. -/
def registerMethods (ms : List GoMethod) : List (String × GoMethod) :=
  (ms.filter methodQualifies).map fun m => (m.name, m)

/-- Lookup in the method table built by `registerMethods`. -/
def lookupMethod (tbl : List (String × GoMethod)) (n : String) : Option GoMethod :=
  (tbl.find? fun p => p.1 == n).map Prod.snd

end Service

namespace Registry

/-- Go source: `TinyRegistry` (registry file): expiry timeout and the
server map, embedded as an association list `addr ↦ start` (times in ns). -/
structure TinyRegistry where
  timeout : Nat
  servers : List (String × Nat)
deriving DecidableEq, Repr

/-- Boolean string order used to model Go's `sort.Strings` (ascending). -/
def strLe (a b : String) : Bool := decide (a ≤ b)

/-- Go source: the aliveness test inside `aliveServers`:
`r.timeout == 0 || s.start.Add(r.timeout).After(time.Now())`, that is, the
timeout is zero or `now < start + timeout` (strictly). -/
def isAlive (timeout now start : Nat) : Bool :=
  timeout == 0 || decide (now < start + timeout)

/-- Go source: `TinyRegistry.aliveServers`: collect the addresses of alive
entries, delete the expired ones from the map, sort ascending. -/
def aliveServers (r : TinyRegistry) (now : Nat) : List String × TinyRegistry :=
  let keep := r.servers.filter fun p => isAlive r.timeout now p.2
  ((keep.map Prod.fst).mergeSort strLe, { r with servers := keep })

/-- Go source: `TinyRegistry.putServer`: refresh the start time of a known
address, or append a fresh entry. -/
def putServer (r : TinyRegistry) (now : Nat) (addr : String) : TinyRegistry :=
  if (r.servers.find? fun p => p.1 == addr).isSome then
    { r with servers := r.servers.map fun p => if p.1 == addr then (p.1, now) else p }
  else
    { r with servers := r.servers ++ [(addr, now)] }

/-- HTTP request methods as dispatched by the registry handler. -/
inductive HTTPMethod
  | get
  | post (addr : String)
  | other
deriving DecidableEq, Repr

/-- Observable response of the registry handler: the
`X-Tinyrpc-Servers` header value on GET, status 500 on an empty POST
address, status 405 on any other method, or a plain OK after a put. -/
inductive RegistryResp
  | serversHeader (v : String)
  | internalServerError
  | methodNotAllowed
  | okPut
deriving DecidableEq, Repr

/-- Go source: `TinyRegistry.ServeHTTP`: GET answers with the comma-joined
alive servers in the `X-Tinyrpc-Servers` header; POST reads the
`X-Tinyrpc-Server` header (500 when empty, otherwise `putServer`); every
other method gets 405. -/
def ServeHTTP (r : TinyRegistry) (now : Nat) (m : HTTPMethod) : RegistryResp × TinyRegistry :=
  match m with
  | .get =>
    let a := aliveServers r now
    (.serversHeader (String.intercalate "," a.1), a.2)
  | .post addr =>
    if addr = "" then (.internalServerError, r)
    else (.okPut, putServer r now addr)
  | .other => (.methodNotAllowed, r)

end Registry

namespace XClient

/-- Go source: `RandomSelect SelectMode = iota` (discovery file). -/
def RandomSelect : Nat := 0

/-- Go source: `RoundRobinSelect` follows `RandomSelect` in the iota block. -/
def RoundRobinSelect : Nat := 1

/-- Go source: `MultiServerDiscovery`: the server list and the round-robin
index (the `rand.Rand` source is external and enters `Get` as the
parameter standing for the value drawn by `d.r.Intn(n)`). -/
structure MultiServerDiscovery where
  servers : List String
  index : Nat
deriving DecidableEq, Repr

/-- Go source: `MultiServerDiscovery.Get`: error on an empty list;
`RandomSelect` indexes by the random draw `rnd` (reduced below `n` like
`Intn`); `RoundRobinSelect` returns `servers[index % n]` and stores
`(index + 1) % n`; any other mode is an unsupported-mode error. -/
def Get (d : MultiServerDiscovery) (mode : Nat) (rnd : Nat) :
    Except GoError (String × MultiServerDiscovery) :=
  let n := d.servers.length
  if h : n = 0 then .error ⟨"rpc discovery: no available severs"⟩
  else if mode = RandomSelect then
    .ok (d.servers.get ⟨rnd % n, Nat.mod_lt _ (Nat.pos_of_ne_zero h)⟩, d)
  else if mode = RoundRobinSelect then
    .ok (d.servers.get ⟨d.index % n, Nat.mod_lt _ (Nat.pos_of_ne_zero h)⟩,
      { d with index := (d.index + 1) % n })
  else .error ⟨"rpc discovery: not supported select mode"⟩

/-- Iterate round-robin `Get` `k` times, collecting the returned addresses
(stopping on an error). -/
def getRounds (d : MultiServerDiscovery) : Nat → List String
  | 0 => []
  | k + 1 =>
    match Get d RoundRobinSelect 0 with
    | .error _ => []
    | .ok r => r.1 :: getRounds r.2 k

end XClient

/-! Concrete fixtures used to evaluate the embedded code on explicit inputs. -/

/-- Concrete in-flight call used for the `terminateCalls` evaluation. -/
def Client.pendingCallC1 : Client.Call :=
  { seq := 1, serviceMethod := "Foo.Sum", callError := none, doneSignalled := false }

/-- Concrete client state with one pending call under key 1. -/
def Client.stateC1 : Client.ClientState :=
  { seq := 2, pending := [(1, Client.pendingCallC1)]
    closing := false, shutdown := false, codecClosed := false }

/-- Concrete in-flight call used for the receive-loop evaluation. -/
def Client.pendingCallC4 : Client.Call :=
  { seq := 1, serviceMethod := "Foo.Sum", callError := none, doneSignalled := false }

/-- Concrete client state with one pending call, for the receive loop. -/
def Client.stateC4 : Client.ClientState :=
  { seq := 2, pending := [(1, Client.pendingCallC4)]
    closing := false, shutdown := false, codecClosed := false }

/-- Response frame whose `Seq` (5) matches no pending call. -/
def Client.orphanFrameC4 : Codec.Frame :=
  { header := { serviceMethod := "Foo.Sum", seq := 5, error := "" }, bodyDecodes := true }

/-- Well-formed response frame for the pending call with `Seq` 1. -/
def Client.replyFrameC4 : Codec.Frame :=
  { header := { serviceMethod := "Foo.Sum", seq := 1, error := "" }, bodyDecodes := true }

/-- Response frame for the pending call carrying a server-side error. -/
def Client.errFrameC4 : Codec.Frame :=
  { header := { serviceMethod := "Foo.Sum", seq := 1, error := "boom" }, bodyDecodes := true }

/-- Go's `int` as seen by reflection: builtin, hence empty package path,
not a pointer. -/
def Service.intType : Service.GoType := { name := "int", pkgPath := "", isPtr := false }

/-- Method `Bad(int, int) error` on some exported receiver: three inputs
with the receiver, one `error` output, both parameter types builtin — and
a reply parameter that is not a pointer. -/
def Service.badReplyMethod : Service.GoMethod :=
  { name := "Bad", numIn := 3, numOut := 1, out0IsError := true
    argType := Service.intType, replyType := Service.intType }

/-- Blank call template handed to `registerCall` in traces. -/
def Client.blankCall : Client.Call :=
  { seq := 0, serviceMethod := "Foo.Sum", callError := none, doneSignalled := false }

/-- Concrete operation trace: three registrations with a removal between. -/
def Client.opsC5 : List Client.ClientOp :=
  [.register Client.blankCall, .register Client.blankCall, .remove 1,
   .register Client.blankCall]

/-- Handshake option selecting the declared but unregistered JSON codec. -/
def Client.optJson : Opt :=
  { magicNumber := MagicNumber, codecType := Codec.JsonType
    connectTimeout := 0, handleTimeout := 0 }

/-! Theorems. -/

/-- C1 (counterexample): the claim says `pending` is empty after
`terminateCalls(err)`; on a client with one pending call the map is not
cleared. -/
theorem terminateCalls_pending_not_cleared :
    (Client.terminateCalls Client.stateC1 ⟨"write error"⟩).pending ≠ [] := by
  decide

/-- C1 (amended): `terminateCalls(err)` sets `shutdown` to true and every
call that was in `pending` at entry has its `Error` field set to `err` and
its `Done` notifier signalled — but the pending map keeps all its keys
instead of becoming empty. -/
theorem terminateCalls_spec (st : Client.ClientState) (e : GoError) :
    (Client.terminateCalls st e).shutdown = true ∧
    (∀ k c, (k, c) ∈ st.pending →
      (k, { c with callError := some e, doneSignalled := true }) ∈
        (Client.terminateCalls st e).pending) ∧
    (Client.terminateCalls st e).pending.map Prod.fst = st.pending.map Prod.fst := by
  refine ⟨rfl, ?_, ?_⟩
  · intro k c hmem
    exact List.mem_map_of_mem _ hmem
  · simp [Client.terminateCalls]

/-- Witness for the amended C1 theorem at a concrete client state. -/
theorem terminateCalls_spec_witness :
    (1, Client.pendingCallC1) ∈ Client.stateC1.pending ∧
    (Client.terminateCalls Client.stateC1 ⟨"write error"⟩).shutdown = true ∧
    (1, { Client.pendingCallC1 with callError := some ⟨"write error"⟩, doneSignalled := true }) ∈
      (Client.terminateCalls Client.stateC1 ⟨"write error"⟩).pending :=
  ⟨by decide, (terminateCalls_spec Client.stateC1 ⟨"write error"⟩).1,
    (terminateCalls_spec Client.stateC1 ⟨"write error"⟩).2.1 1 Client.pendingCallC1 (by decide)⟩

/-- C2: a non-CONNECT request gets status 405, and a CONNECT request
makes the handler write `"HTTP/1.0" + connected + "\n\n"`, which lacks the
space of the status line `HTTP/1.0 200 Connected to tinyrpc` that the
claim (and the repository's own `NewHTTPClient`) expects. -/
theorem serveHTTP_connect_status_line :
    Server.ServeHTTP "GET" = .methodNotAllowed 405 "405 must CONNECT\n" ∧
    Server.ServeHTTP "CONNECT" = .hijack "HTTP/1.0200 Connected to tinyrpc\n\n" ∧
    "HTTP/1.0200 Connected to tinyrpc\n\n" ≠ "HTTP/1.0 " ++ Server.connected ++ "\n\n" := by
  refine ⟨by decide, by decide, by decide⟩

/-- C3: the method `Bad(int, int) error` with a non-pointer reply
parameter passes the `registerMethods` filter and lands in the method
table, although the claim (and the doc comment on `Server.Register`)
requires the reply parameter to be a pointer type. -/
theorem registerMethods_nonpointer_reply :
    Service.methodQualifies Service.badReplyMethod = true ∧
    Service.badReplyMethod.replyType.isPtr = false ∧
    Service.lookupMethod (Service.registerMethods [Service.badReplyMethod]) "Bad" =
      some Service.badReplyMethod := by
  decide

/-- C4: on a response frame whose `Seq` matches no pending call the loop
body executes `ReadBody(h.Error)` with a non-pointer string, so the gob
codec fails, the receive loop breaks instead of continuing, and
`terminateCalls` poisons every pending call with the decode error — here
the pending call 1 never completes and the later well-formed frame for it
is never read.  The error-header branch for a pending call does behave as
claimed: empty body read, `call.Error` set, `Done` signalled, loop
continues. -/
theorem receive_orphan_not_drained :
    (Client.receiveStep Client.stateC4 Client.orphanFrameC4).err =
      some ⟨"gob: attempt to decode into a non-pointer"⟩ ∧
    (Client.receive Client.stateC4 [Client.orphanFrameC4, Client.replyFrameC4]).2 = [] ∧
    (Client.receive Client.stateC4 [Client.orphanFrameC4, Client.replyFrameC4]).1.shutdown
      = true ∧
    Client.mapGet
      (Client.receive Client.stateC4 [Client.orphanFrameC4, Client.replyFrameC4]).1.pending 1 =
      some { Client.pendingCallC4 with
              callError := some ⟨"gob: attempt to decode into a non-pointer"⟩
              doneSignalled := true } ∧
    (Client.receiveStep Client.stateC4 Client.errFrameC4).notified =
      some { Client.pendingCallC4 with callError := some ⟨"boom"⟩, doneSignalled := true } ∧
    (Client.receiveStep Client.stateC4 Client.errFrameC4).err = none := by
  decide

/-- C6 (counterexample): the claim says more than one option yields an
error, but `parseOptions` with two options whose first is a nil pointer
returns `DefaultOption` successfully. -/
theorem parseOptions_two_with_nil_first :
    Client.parseOptions [none, some DefaultOption] = .ok DefaultOption ∧
    ∀ e : GoError, Client.parseOptions [none, some DefaultOption] ≠ .error e := by
  constructor
  · decide
  · intro e hc
    rw [show Client.parseOptions [none, some DefaultOption] = .ok DefaultOption by decide] at hc
    exact Except.noConfusion hc

/-- C6 (amended): zero options, or a nil first option, yield
`DefaultOption`; exactly one non-nil option is returned with
`MagicNumber` forced to the canonical constant, `CodecType` defaulted to
gob when empty and the timeout fields untouched; more than one option
with a non-nil first option is an error. -/
theorem parseOptions_spec :
    Client.parseOptions [] = .ok DefaultOption ∧
    (∀ opts, Client.parseOptions (none :: opts) = .ok DefaultOption) ∧
    (∀ o : Opt, Client.parseOptions [some o] =
      .ok { o with
              magicNumber := MagicNumber
              codecType := if o.codecType = "" then Codec.GobType else o.codecType }) ∧
    ∀ (o : Opt) (rest : List (Option Opt)), rest ≠ [] →
      Client.parseOptions (some o :: rest) = .error ⟨"number of options is more than 1"⟩ := by
  refine ⟨rfl, ?_, ?_, ?_⟩
  · intro opts
    simp [Client.parseOptions]
  · intro o
    simp [Client.parseOptions, DefaultOption]
  · intro o rest hne
    cases rest with
    | nil => exact absurd rfl hne
    | cons p ps => simp [Client.parseOptions]

/-- Witness for the amended C6 theorem at concrete option lists. -/
theorem parseOptions_spec_witness :
    ([some DefaultOption] : List (Option Opt)) ≠ [] ∧
    Client.parseOptions [some DefaultOption, some DefaultOption] =
      .error ⟨"number of options is more than 1"⟩ :=
  ⟨by simp, parseOptions_spec.2.2.2 DefaultOption [some DefaultOption] (by simp)⟩

/-- C9: the first `Close()` on a client that is not yet closing sets
`closing`, closes the codec and succeeds; a `Close()` on any closing
client returns `ErrShutdown` and leaves the state unchanged (hence every
repeat `Close()` does); and after `Close()` every `registerCall` fails
with `ErrShutdown` without touching the state. -/
theorem close_spec (st : Client.ClientState) (h : st.closing = false) :
    ((Client.Close st).1.closing = true ∧ (Client.Close st).1.codecClosed = true ∧
      (Client.Close st).2 = .ok ()) ∧
    (∀ st2 : Client.ClientState, st2.closing = true →
      Client.Close st2 = (st2, .error ErrShutdown)) ∧
    (Client.Close (Client.Close st).1).2 = .error ErrShutdown ∧
    ∀ c, Client.registerCall (Client.Close st).1 c =
      ((Client.Close st).1, .error ErrShutdown) := by
  refine ⟨?_, ?_, ?_, ?_⟩
  · simp [Client.Close, h]
  · intro st2 h2
    simp [Client.Close, h2]
  · simp [Client.Close, h]
  · intro c
    simp [Client.Close, Client.registerCall, h]

/-- Witness for the C9 theorem at the freshly constructed client. -/
theorem close_spec_witness :
    Client.newClientCodec.closing = false ∧
    (Client.Close Client.newClientCodec).1.closing = true ∧
    (Client.Close (Client.Close Client.newClientCodec).1).2 = .error ErrShutdown :=
  ⟨rfl, (close_spec Client.newClientCodec rfl).1.1,
    (close_spec Client.newClientCodec rfl).2.2.1⟩

/-- C10: the codec factory table has exactly one entry, keyed by
`application/gob`; every other codec type — `application/json` included —
has no constructor, makes `NewClient` fail with the invalid-codec-type
error before the handshake is written, and makes a server that reads such
a `CodecType` in the handshake (with a correct magic number) abort the
connection. -/
theorem gob_only_codec_spec :
    Codec.NewCodecFuncMap.length = 1 ∧
    (∀ t, (Codec.lookupCodec t).isSome ↔ t = Codec.GobType) ∧
    Codec.lookupCodec Codec.JsonType = none ∧
    (∀ opt : Opt, opt.codecType ≠ Codec.GobType →
      Client.NewClient opt =
        { sentHandshake := none
          result := .error ⟨"invalid codec type " ++ opt.codecType⟩ }) ∧
    ∀ opt : Opt, opt.magicNumber = MagicNumber → opt.codecType ≠ Codec.GobType →
      Server.ServeConn (some opt) = .abortInvalidCodec := by
  have hlook : ∀ t, t ≠ Codec.GobType → Codec.lookupCodec t = none := by
    intro t ht
    simp only [Codec.lookupCodec, Codec.NewCodecFuncMap, List.find?]
    rw [show (Codec.GobType == t) = false by
      simpa using fun h => ht h.symm]
    rfl
  refine ⟨rfl, ?_, hlook _ (by decide), ?_, ?_⟩
  · intro t
    by_cases ht : t = Codec.GobType
    · subst ht
      simp [Codec.lookupCodec, Codec.NewCodecFuncMap]
    · simp [hlook t ht, ht]
  · intro opt hne
    simp [Client.NewClient, hlook _ hne]
  · intro opt hmagic hne
    simp [Server.ServeConn, hmagic, hlook _ hne]

/-- Witness for the C10 theorem at the JSON codec type. -/
theorem gob_only_codec_spec_witness :
    Client.optJson.codecType ≠ Codec.GobType ∧
    Client.NewClient Client.optJson =
      { sentHandshake := none
        result := .error ⟨"invalid codec type " ++ Codec.JsonType⟩ } ∧
    Server.ServeConn (some Client.optJson) = .abortInvalidCodec :=
  ⟨by decide, gob_only_codec_spec.2.2.2.1 Client.optJson (by decide),
    gob_only_codec_spec.2.2.2.2 Client.optJson rfl (by decide)⟩

/-- Helper: along any operation trace whose length keeps the `uint64`
counter from wrapping, the sequence numbers assigned by successful
registrations are strictly increasing and bounded below by the starting
counter. -/
theorem runOps_assigned_mono (ops : List Client.ClientOp) :
    ∀ st : Client.ClientState, st.seq + ops.length < 2 ^ 64 →
      List.Chain' (· < ·) (Client.runOps st ops).2 ∧
      ∀ s ∈ (Client.runOps st ops).2, st.seq ≤ s := by
  induction ops with
  | nil =>
    intro st _
    refine ⟨by simp [Client.runOps], by simp [Client.runOps]⟩
  | cons op rest ih =>
    intro st h
    have hlen : st.seq + rest.length < 2 ^ 64 := by
      simp only [List.length_cons] at h
      omega
    cases op with
    | register c =>
      by_cases hcs : (st.closing || st.shutdown) = true
      · have heq : Client.runOps st (.register c :: rest) = Client.runOps st rest := by
          simp [Client.runOps, Client.registerCall, hcs]
        rw [heq]
        exact ih st hlen
      · have hseq1 : (st.seq + 1) % 2 ^ 64 = st.seq + 1 := by
          apply Nat.mod_eq_of_lt
          simp only [List.length_cons] at h
          omega
        have heq : Client.runOps st (.register c :: rest) =
            ((Client.runOps
              { st with
                  pending := Client.mapIns st.pending st.seq { c with seq := st.seq }
                  seq := (st.seq + 1) % 2 ^ 64 } rest).1,
              st.seq ::
                (Client.runOps
                  { st with
                      pending := Client.mapIns st.pending st.seq { c with seq := st.seq }
                      seq := (st.seq + 1) % 2 ^ 64 } rest).2) := by
          simp [Client.runOps, Client.registerCall, hcs]
        have hbound :
            ({ st with
                pending := Client.mapIns st.pending st.seq { c with seq := st.seq }
                seq := (st.seq + 1) % 2 ^ 64 } : Client.ClientState).seq + rest.length
              < 2 ^ 64 := by
          simp only [hseq1]
          simp only [List.length_cons] at h
          omega
        obtain ⟨hch, hlb⟩ := ih _ hbound
        rw [heq]
        constructor
        · rw [List.chain'_cons']
          refine ⟨?_, hch⟩
          intro y hy
          have hmem := List.mem_of_mem_head? hy
          have := hlb y hmem
          simp only [hseq1] at this
          omega
        · intro s hs
          rcases List.mem_cons.mp hs with rfl | hs2
          · exact le_refl _
          · have := hlb s hs2
            simp only [hseq1] at this
            omega
    | remove s0 =>
      have heq : Client.runOps st (.remove s0 :: rest) =
          Client.runOps { st with pending := Client.mapDel st.pending s0 } rest := by
        simp [Client.runOps, Client.removeCall]
      rw [heq]
      exact ih _ hlen
    | close =>
      by_cases hc : st.closing
      · have heq : Client.runOps st (.close :: rest) = Client.runOps st rest := by
          simp [Client.runOps, Client.Close, hc]
        rw [heq]
        exact ih st hlen
      · have heq : Client.runOps st (.close :: rest) =
            Client.runOps { st with closing := true, codecClosed := true } rest := by
          simp [Client.runOps, Client.Close, hc]
        rw [heq]
        exact ih _ hlen
    | terminate e =>
      have heq : Client.runOps st (.terminate e :: rest) =
          Client.runOps (Client.terminateCalls st e) rest := by
        simp [Client.runOps]
      rw [heq]
      exact ih _ hlen

/-- C5: a fresh client's sequence counter starts at 1 (0 is reserved as
invalid); along any operation trace short enough that the `uint64`
counter cannot wrap, the sequence numbers assigned by successful
registrations are strictly positive and strictly increasing; and every
successful `registerCall` returns the entry counter value and stores the
call in `pending` under a key equal to its own `Seq`. -/
theorem registerCall_seq_monotone (ops : List Client.ClientOp)
    (h : ops.length ≤ 2 ^ 64 - 2) :
    Client.newClientCodec.seq = 1 ∧
    List.Chain' (· < ·) (Client.runOps Client.newClientCodec ops).2 ∧
    (∀ s ∈ (Client.runOps Client.newClientCodec ops).2, 0 < s) ∧
    ∀ (st : Client.ClientState) (c : Client.Call) (s : Nat),
      (Client.registerCall st c).2 = .ok s →
        s = st.seq ∧
        Client.mapGet (Client.registerCall st c).1.pending s = some { c with seq := s } := by
  have hb : Client.newClientCodec.seq + ops.length < 2 ^ 64 := by
    have h64 : (2 : Nat) ^ 64 = 18446744073709551616 := by norm_num
    simp only [Client.newClientCodec, h64] at *
    omega
  obtain ⟨hch, hlb⟩ := runOps_assigned_mono ops Client.newClientCodec hb
  refine ⟨rfl, hch, ?_, ?_⟩
  · intro s hs
    have := hlb s hs
    simp only [Client.newClientCodec] at this
    omega
  · intro st c s hok
    by_cases hcs : (st.closing || st.shutdown) = true
    · simp [Client.registerCall, hcs] at hok
    · simp only [Client.registerCall, hcs, Bool.false_eq_true, if_false] at hok ⊢
      simp only [Except.ok.injEq] at hok
      subst hok
      refine ⟨rfl, ?_⟩
      simp [Client.mapGet, Client.mapIns]

/-- Witness for the C5 theorem at a concrete four-operation trace. -/
theorem registerCall_seq_monotone_witness :
    Client.opsC5.length ≤ 2 ^ 64 - 2 ∧
    List.Chain' (· < ·) (Client.runOps Client.newClientCodec Client.opsC5).2 ∧
    (Client.runOps Client.newClientCodec Client.opsC5).2 = [1, 2, 3] :=
  ⟨by norm_num [Client.opsC5],
    (registerCall_seq_monotone Client.opsC5 (by norm_num [Client.opsC5])).2.1,
    by decide⟩

/-- C7: a registry GET answers with the `X-Tinyrpc-Servers` header whose
value is the comma-join of a sorted-ascending list containing exactly the
live addresses, where an address is live iff the registry timeout is 0 or
`now` is strictly before its start plus the timeout; the registry's map
afterwards holds exactly the entries that were alive, so every expired
entry has been removed. -/
theorem registryGet_spec (r : Registry.TinyRegistry) (now : Nat) :
    (∃ l : List String,
      (Registry.ServeHTTP r now .get).1 = .serversHeader (String.intercalate "," l) ∧
      List.Sorted (· ≤ ·) l ∧
      ∀ a, a ∈ l ↔ ∃ s, (a, s) ∈ r.servers ∧ (r.timeout = 0 ∨ now < s + r.timeout)) ∧
    (∀ p : String × Nat,
      p ∈ (Registry.ServeHTTP r now .get).2.servers ↔
        p ∈ r.servers ∧ (r.timeout = 0 ∨ now < p.2 + r.timeout)) ∧
    (Registry.ServeHTTP r now .get).2.timeout = r.timeout := by
  refine ⟨?_, ?_, rfl⟩
  · refine ⟨(Registry.aliveServers r now).1, rfl, ?_, ?_⟩
    · simp only [Registry.aliveServers]
      have hp := @List.sorted_mergeSort String Registry.strLe
        (fun a b c hab hbc => by
          simp only [Registry.strLe, decide_eq_true_eq] at hab hbc ⊢
          exact le_trans hab hbc)
        (fun a b => by
          simp only [Registry.strLe, Bool.or_eq_true, decide_eq_true_eq]
          exact le_total a b)
        ((r.servers.filter fun p : String × Nat => Registry.isAlive r.timeout now p.2).map Prod.fst)
      exact hp.imp fun hab => by
        simpa [Registry.strLe] using hab
    · intro a
      simp only [Registry.aliveServers]
      rw [List.mem_mergeSort]
      constructor
      · intro ha
        obtain ⟨p, hp, rfl⟩ := List.mem_map.mp ha
        obtain ⟨hmem, halive⟩ := List.mem_filter.mp hp
        refine ⟨p.2, hmem, ?_⟩
        simpa [Registry.isAlive] using halive
      · rintro ⟨s, hmem, halive⟩
        refine List.mem_map.mpr ⟨(a, s), List.mem_filter.mpr ⟨hmem, ?_⟩, rfl⟩
        simpa [Registry.isAlive] using halive
  · intro p
    show p ∈ (Registry.aliveServers r now).2.servers ↔ _
    simp only [Registry.aliveServers]
    constructor
    · intro hp
      obtain ⟨hmem, halive⟩ := List.mem_filter.mp hp
      exact ⟨hmem, by simpa [Registry.isAlive] using halive⟩
    · rintro ⟨hmem, halive⟩
      exact List.mem_filter.mpr ⟨hmem, by simpa [Registry.isAlive] using halive⟩

/-- C8: with the round-robin strategy `Get` on a non-empty server list of
length `n` returns `servers[index % n]` and stores `(index + 1) % n` as
the new index — advancing the cursor by one position modulo `n` — so
successive calls starting from index 0 over `[a, b, c]` yield
`a, b, c, a, b, c`; on an empty list `Get` errors for every mode. -/
theorem roundRobin_get_spec :
    (∀ d : XClient.MultiServerDiscovery, ∀ h : d.servers ≠ [],
      XClient.Get d XClient.RoundRobinSelect 0 =
        .ok (d.servers.get
              ⟨d.index % d.servers.length,
                Nat.mod_lt _ (List.length_pos.mpr h)⟩,
          { d with index := (d.index + 1) % d.servers.length })) ∧
    XClient.getRounds ⟨["a", "b", "c"], 0⟩ 6 = ["a", "b", "c", "a", "b", "c"] ∧
    ∀ d : XClient.MultiServerDiscovery, d.servers = [] →
      ∀ mode rnd, XClient.Get d mode rnd = .error ⟨"rpc discovery: no available severs"⟩ := by
  refine ⟨?_, by decide, ?_⟩
  · intro d h
    have hn : d.servers.length ≠ 0 := by
      simpa [List.length_eq_zero] using h
    simp [XClient.Get, XClient.RandomSelect, XClient.RoundRobinSelect, hn]
  · intro d hd mode rnd
    simp [XClient.Get, hd]

/-- Witness for the C8 theorem at a concrete two-server discovery. -/
theorem roundRobin_get_spec_witness :
    (["x", "y"] : List String) ≠ [] ∧
    XClient.Get ⟨["x", "y"], 5⟩ XClient.RoundRobinSelect 0 = .ok ("y", ⟨["x", "y"], 0⟩) := by
  refine ⟨by simp, ?_⟩
  rw [roundRobin_get_spec.1 ⟨["x", "y"], 5⟩ (by simp)]
  decide

end TinyRPC
